import Mathlib

/-!
# Exception dispatch and stack unwinding of the Hawkbeans JVM

A shallow embedding of `src/jvm/exceptions.c`.

Conventions of the embedding.

* A pointer that the code tests against `NULL` is an `Option`: `none` is `NULL`,
  `some a` is the handle `a`.  Dereferencing `NULL` ends the run with
  `Status.fault`.
* The heap is a total map from handles to `native_obj_t`; `eref->heap_ptr` of a
  non-null `eref` is the lookup `heap a`.
* The headers (`types.h`, `class.h`, `stack.h`, `thread.h`, ...) are not part of
  the sources at hand.  Structures carry exactly the members that
  `exceptions.c` reads or writes; integer members are `Nat` because their
  declared widths are in those headers.
* The frame stack of the thread is a list whose head is `cur_frame`; the empty
  list is `cur_frame == NULL`.
* The recursion of `hb_throw_exception` and `hb_throw_and_create_excp` is
  driven by a fuel argument: every C call of one of the two consumes one unit.
* Calls that leave `exceptions.c` are recorded in `VM.calls`, text written by
  `printf` is appended to `VM.stdout`.
-/

namespace Hawkbeans

/-! ## Data model -/

/-- The union `var_t`, one component per view that `exceptions.c` uses:
`obj` (an `obj_ref_t *`) and `char_val`.  A zeroed slot is `NULL` / `0`. -/
structure var_t where
  obj : Option Nat := none
  char_val : Nat := 0

/-- Member `flags.array` of `native_obj_t`. -/
structure array_flags_t where
  length : Nat

/-- Member `flags` of `native_obj_t`. -/
structure obj_flags_t where
  array : array_flags_t

/-- An entry of a constant pool read as `CONSTANT_Class_info_t`. -/
structure CONSTANT_Class_info_t where
  name_idx : Nat

/-- The members of `java_class_t` behind the three accesses of `exceptions.c`:
`name` is the string `hb_get_class_name` reports, `const_pool i` is the entry
`const_pool[i]` read through the cast to `CONSTANT_Class_info_t *`, and
`const_str i` is the string `hb_get_const_str (i, cls)` reports. -/
structure java_class_t where
  name : String
  const_pool : Nat → CONSTANT_Class_info_t
  const_str : Nat → String

/-- A heap object: `class`, `fields[]` and `flags.array.length`. -/
structure native_obj_t where
  cls : java_class_t
  fields : Nat → var_t
  flags : obj_flags_t

/-- One entry of a method's exception table (`excp_table_t`). -/
structure excp_table_t where
  start_pc : Nat
  end_pc : Nat
  handler_pc : Nat
  catch_type : Nat
  deriving DecidableEq, Repr

/-- The code attribute of a method: `excp_table` with its `excp_table_len`
entries, as a list. -/
structure code_attr_t where
  excp_table : List excp_table_t

/-- Member `minfo` of a frame. -/
structure method_info_t where
  code_attr : code_attr_t

/-- Operand stack `op_stack_t`: `oprs[]` is the slot memory, `sp` the index of
the top slot. -/
structure op_stack_t where
  max_oprs : Nat
  sp : Nat
  oprs : Nat → var_t

/-- One activation record (`stack_frame_t`). -/
structure stack_frame_t where
  minfo : method_info_t
  cls : java_class_t
  pc : Nat
  op_stack : op_stack_t

/-- The thread `jthread_t`: `class` and the frame stack, `cur_frame` first. -/
structure jthread_t where
  cls : java_class_t
  frames : List stack_frame_t

/-- A call that leaves `exceptions.c`, or an entry into `hb_throw_exception`. -/
inductive Call where
  | hb_get_or_load_class (name : String)
  | gc_obj_alloc (cls : Option String)
  | hb_push_ctor_frame (oref : Option Nat)
  | hb_throw_exception (eref : Option Nat)
  | hb_pop_frame
  | HB_WARN (msg : String)
  | free
  deriving DecidableEq, Repr

/-- The machine state `exceptions.c` works on: the global `cur_thread`, the
heap, the text printed so far and the record of calls. -/
structure VM where
  cur_thread : jthread_t
  heap : Nat → native_obj_t
  stdout : String
  calls : List Call

/-- How a run ends: control goes back to the caller, the process exits with a
status, a `NULL` pointer is dereferenced, or the fuel is used up. -/
inductive Status where
  | returned
  | exited (status : Nat)
  | fault
  | out_of_fuel
  deriving DecidableEq, Repr

/-- The end of a run together with the machine state reached. -/
structure Result where
  status : Status
  vm : VM

/-- The collaborators whose code is in other files of the runtime, as
parameters: the class loader, the allocator, and the frame that
`hb_push_ctor_frame` builds for an object. -/
structure Env where
  hb_get_or_load_class : String → Option java_class_t
  gc_obj_alloc : Option java_class_t → (Nat → native_obj_t) → Option Nat × (Nat → native_obj_t)
  ctor_frame : (Nat → native_obj_t) → Option Nat → stack_frame_t

/-- `EXIT_FAILURE` of `stdlib.h`. -/
def EXIT_FAILURE : Nat := 1

/-- Modelled from the spec: `EXCP_NULL_PTR` of `exceptions.h`, the identifier of
the null-pointer kind, which is the index of its class name in `excp_strs`. -/
def EXCP_NULL_PTR : Fin 16 := 0

/-! ## The registry -/

/-- The table `excp_strs`. -/
def excp_strs : List String :=
  [ "java/lang/NullPointerException",
    "java/lang/IndexOutOfBoundsException",
    "java/lang/ArrayIndexOutOfBoundsException",
    "IncompatibleClassChangeError",
    "java/lang/NegativeArraySizeException",
    "java/lang/OutOfMemoryError",
    "java/lang/ClassNotFoundException",
    "java/lang/ArithmeticException",
    "java/lang/NoSuchFieldError",
    "java/lang/NoSuchMethodError",
    "java/lang/RuntimeException",
    "java/io/IOException",
    "FileNotFoundException",
    "java/lang/InterruptedException",
    "java/lang/NumberFormatException",
    "java/lang/StringIndexOutOfBoundsException" ]

/-- The access `excp_strs[type]` for a kind identifier. -/
def excp_strs_at (type : Fin 16) : String :=
  excp_strs.get ⟨type.val, type.isLt⟩

/-- The function `strstr` of `string.h` on the contents of two C strings (the
chars before the terminator): `some` of the offset of the first occurrence of
`needle` in `haystack`, or `none` for the `NULL` result.  The empty `needle`
occurs at offset 0. -/
def strstr : List Char → List Char → Option Nat
  | [], needle => if needle = [] then some 0 else none
  | c :: cs, needle =>
    if needle.isPrefixOf (c :: cs) then some 0 else (strstr cs needle).map (fun k => k + 1)

/-- The `for` loop of `hb_excp_str_to_type` over the entries still to visit,
`i` being the index of the first of them. -/
def hb_excp_str_to_type_loop (str : String) : List String → Nat → Int
  | [], _ => -1
  | s :: rest, i =>
    if (strstr s.data str.data).isSome then (i : Int)
    else hb_excp_str_to_type_loop str rest (i + 1)

/-- The function `hb_excp_str_to_type`. -/
def hb_excp_str_to_type (str : String) : Int :=
  hb_excp_str_to_type_loop str excp_strs 0

/-! ## Collaborators -/

/-- Modelled from the spec: `hb_get_class_name` of the object model
(`getRuntimeClassName`), the name of a class. -/
def hb_get_class_name (cls : java_class_t) : String :=
  cls.name

/-- Modelled from the spec: `hb_get_const_str` of the class layer
(`resolveConstantClassName`), the string at an index of a class's constant
pool. -/
def hb_get_const_str (idx : Nat) (cls : java_class_t) : String :=
  cls.const_str idx

/-- Append one call to the record. -/
def VM.call (vm : VM) (c : Call) : VM :=
  { vm with calls := vm.calls ++ [c] }

/-- Modelled from the spec: `hb_pop_frame` of the frame stack (`popFrame`),
which discards the current frame and makes its caller current. -/
def hb_pop_frame (vm : VM) : VM :=
  { vm with
    cur_thread := { vm.cur_thread with frames := vm.cur_thread.frames.tail }
    calls := vm.calls ++ [Call.hb_pop_frame] }

/-- Modelled from the spec: `hb_push_ctor_frame` of the frame stack
(`pushFrame`), which makes the constructor frame of the object the new topmost
frame. -/
def hb_push_ctor_frame (env : Env) (vm : VM) (oref : Option Nat) : VM :=
  { vm with
    cur_thread :=
      { vm.cur_thread with frames := env.ctor_frame vm.heap oref :: vm.cur_thread.frames }
    calls := vm.calls ++ [Call.hb_push_ctor_frame oref] }

/-! ## `get_excp_str` -/

/-- The function `get_excp_str`: `none` is the `NULL` result, `some buf` is the
buffer of `length + 1` chars it fills, the last one `0`. -/
def get_excp_str (heap : Nat → native_obj_t) (eref : Nat) : Option (List Nat) :=
  let obj := heap eref
  let str_ref := (obj.fields 0).obj
  match str_ref with
  | none => none
  | some s =>
    let str_obj := heap s
    let arr_ref := (str_obj.fields 0).obj
    match arr_ref with
    | none => none
    | some r =>
      let arr_obj := heap r
      some ((List.range arr_obj.flags.array.length).map
              (fun i => (arr_obj.fields i).char_val % 256) ++ [0])

/-- The text `printf` writes for a `%s` argument: the chars before the first
`0` of the buffer. -/
def c_string (buf : List Nat) : String :=
  String.mk ((buf.takeWhile (fun c => c != 0)).map Char.ofNat)

/-! ## `push_val` -/

/-- The function `push_val` on the operand stack of the current frame: the
stack it leaves and the calls it makes. -/
def push_val (stack : op_stack_t) (v : var_t) : op_stack_t × List Call :=
  let warn := if stack.max_oprs < stack.sp + 1 then [Call.HB_WARN "Stack overflow!"] else []
  ({ stack with sp := stack.sp + 1, oprs := Function.update stack.oprs (stack.sp + 1) v }, warn)

/-! ## `hb_throw_exception` and `hb_throw_and_create_excp` -/

/-- The name `excp_cand_type_name` that the loop computes for an entry: the
entry's `catch_type` indexes the constant pool of the frame's class, and the
`name_idx` found there is resolved in `cur_thread->class`, here `tcls`. -/
def excp_cand_type_name (tcls : java_class_t) (f : stack_frame_t) (e : excp_table_t) : String :=
  let excp_candidate := f.cls.const_pool e.catch_type
  hb_get_const_str excp_candidate.name_idx tcls

/-- The `for` loop of `hb_throw_exception` over the entries still to visit, in
the frame `f`: `some` of the frame after the handler is installed and the calls
made, or `none` when the loop runs to its end. -/
def excp_table_loop (tcls : java_class_t) (f : stack_frame_t) (eref : Option Nat)
    (excp_class_name : String) : List excp_table_t → Option (stack_frame_t × List Call)
  | [] => none
  | e :: es =>
    if excp_class_name = excp_cand_type_name tcls f e then
      if f.pc ≥ e.start_pc ∧ f.pc ≤ e.end_pc then
        let v : var_t := { obj := eref }
        let p := push_val f.op_stack v
        some ({ f with op_stack := p.1, pc := e.handler_pc }, p.2)
      else excp_table_loop tcls f eref excp_class_name es
    else excp_table_loop tcls f eref excp_class_name es

mutual

/-- The function `hb_throw_and_create_excp`. -/
def hb_throw_and_create_excp (env : Env) : Nat → VM → Fin 16 → Result
  | 0, vm, _ => ⟨Status.out_of_fuel, vm⟩
  | fuel + 1, vm, type =>
    let excp_cls := env.hb_get_or_load_class (excp_strs_at type)
    let vm := vm.call (Call.hb_get_or_load_class (excp_strs_at type))
    let a := env.gc_obj_alloc excp_cls vm.heap
    let excp_inst := a.1
    let vm := { vm with heap := a.2, calls := vm.calls ++ [Call.gc_obj_alloc (excp_cls.map hb_get_class_name)] }
    let vm := hb_push_ctor_frame env vm excp_inst
    hb_throw_exception env fuel vm excp_inst

/-- The function `hb_throw_exception`. -/
def hb_throw_exception (env : Env) : Nat → VM → Option Nat → Result
  | 0, vm, _ => ⟨Status.out_of_fuel, vm⟩
  | fuel + 1, vm, eref =>
    let vm := vm.call (Call.hb_throw_exception eref)
    match eref with
    | none =>
      -- `if(!eref) hb_throw_and_create_excp(EXCP_NULL_PTR);` and no `return`
      let r := hb_throw_and_create_excp env fuel vm EXCP_NULL_PTR
      match r.status with
      | Status.returned => ⟨Status.fault, r.vm⟩  -- `eref->heap_ptr` with `eref == NULL`
      | _ => r
    | some a =>
      let excp_native_obj := vm.heap a
      let excp_class_name := hb_get_class_name excp_native_obj.cls
      match vm.cur_thread.frames with
      | [] => ⟨Status.fault, vm⟩  -- `cur_thread->cur_frame->minfo` with `cur_frame == NULL`
      | f :: rest =>
        match excp_table_loop vm.cur_thread.cls f eref excp_class_name
            f.minfo.code_attr.excp_table with
        | some (f1, cs) =>
          ⟨Status.returned,
           { vm with
             cur_thread := { vm.cur_thread with frames := f1 :: rest }
             calls := vm.calls ++ cs }⟩
        | none =>
          let vm := hb_pop_frame vm
          match vm.cur_thread.frames with
          | [] =>
            let excp_str := get_excp_str vm.heap a
            let vm :=
              match excp_str with
              | some buf =>
                { vm with stdout := vm.stdout ++ ("Exception in thread \"main\" " ++
                    excp_class_name ++ ": " ++ c_string buf ++ " \n") }
              | none =>
                { vm with stdout := vm.stdout ++ ("Exception in thread \"main\" " ++
                    excp_class_name ++ " \n") }
            let vm := vm.call Call.free
            ⟨Status.exited EXIT_FAILURE, vm⟩
          | _ :: _ => hb_throw_exception env fuel vm eref

end

/-! ## Predicates of the specification -/

/-- The entry `e` of the frame `f` catches the class name `name`: the frame's
program counter lies in the inclusive range `[start_pc, end_pc]` and the
resolved catch-type name is equal to `name`. -/
def handles (tcls : java_class_t) (name : String) (f : stack_frame_t) (e : excp_table_t) : Prop :=
  e.start_pc ≤ f.pc ∧ f.pc ≤ e.end_pc ∧ excp_cand_type_name tcls f e = name

/-- Some entry of the frame's exception table catches the class name. -/
def frame_handles (tcls : java_class_t) (name : String) (f : stack_frame_t) : Prop :=
  ∃ e ∈ f.minfo.code_attr.excp_table, handles tcls name f e

instance (tcls : java_class_t) (name : String) (f : stack_frame_t) (e : excp_table_t) :
    Decidable (handles tcls name f e) := by
  unfold handles; infer_instance

instance (tcls : java_class_t) (name : String) (f : stack_frame_t) :
    Decidable (frame_handles tcls name f) := by
  unfold frame_handles; infer_instance

/-- The number of `hb_pop_frame` calls in a record of calls. -/
def pops (cs : List Call) : Nat :=
  cs.count Call.hb_pop_frame

/-- The calls recorded while `n` frames are unwound: each level enters
`hb_throw_exception` and pops one frame. -/
def unwind_calls (eref : Option Nat) : Nat → List Call
  | 0 => []
  | n + 1 => Call.hb_throw_exception eref :: Call.hb_pop_frame :: unwind_calls eref n

/-- The frame `f` after the handler of entry `e` is installed for `eref`. -/
def install (f : stack_frame_t) (eref : Option Nat) (e : excp_table_t) : stack_frame_t :=
  { f with op_stack := (push_val f.op_stack { obj := eref }).1, pc := e.handler_pc }

/-- The text `hb_throw_exception` prints for an uncaught exception. -/
def report (excp_class_name : String) (excp_str : Option (List Nat)) : String :=
  match excp_str with
  | some buf => "Exception in thread \"main\" " ++ excp_class_name ++ ": " ++ c_string buf ++ " \n"
  | none => "Exception in thread \"main\" " ++ excp_class_name ++ " \n"

/-! ## Concrete scenarios -/

/-- A class named `name` whose constant pool holds the strings `strs`; the entry
at index `i` read as a class entry has `name_idx = i + 1`. -/
def mk_class (name : String) (strs : List String) : java_class_t :=
  { name := name
    const_pool := fun i => ⟨i + 1⟩
    const_str := fun i => strs.getD i "" }

/-- An object of class `cls` whose field 0 holds the reference `msg`. -/
def mk_obj (cls : java_class_t) (msg : Option Nat) : native_obj_t :=
  { cls := cls
    fields := fun i => if i = 0 then { obj := msg } else {}
    flags := ⟨⟨0⟩⟩ }

/-- A character array object holding `chars`. -/
def mk_char_array (cls : java_class_t) (chars : List Nat) : native_obj_t :=
  { cls := cls
    fields := fun i => { char_val := chars.getD i 0 }
    flags := ⟨⟨chars.length⟩⟩ }

/-- A frame of class `cls` with the given exception table, program counter and
operand stack bounds; all slots zeroed. -/
def mk_frame (cls : java_class_t) (tbl : List excp_table_t) (pc max_oprs sp : Nat) :
    stack_frame_t :=
  { minfo := ⟨⟨tbl⟩⟩
    cls := cls
    pc := pc
    op_stack := { max_oprs := max_oprs, sp := sp, oprs := fun _ => {} } }

/-- The class of the running program: index 1 of its pool is a class entry
naming the string at index 2, `ArithmeticException`; index 3 names the string
at index 4, `java/lang/NullPointerException`. -/
def main_class : java_class_t :=
  mk_class "Main" ["", "", "ArithmeticException", "", "java/lang/NullPointerException"]

/-- The exception class of scenarios A and B. -/
def arith_class : java_class_t :=
  mk_class "ArithmeticException" []

/-- The exception class of scenarios C and D. -/
def runtime_class : java_class_t :=
  mk_class "java/lang/RuntimeException" []

/-- The class `java/lang/NullPointerException`. -/
def npe_class : java_class_t :=
  mk_class "java/lang/NullPointerException" []

/-- The class `java/lang/String` and the class of character arrays. -/
def string_class : java_class_t :=
  mk_class "java/lang/String" []

/-- The heap of the scenarios: 1 is an `ArithmeticException` without message,
2 a `java/lang/RuntimeException` whose message is the string object 3 backed by
the character array 4 (`boom`), 5 a `java/lang/RuntimeException` without
message, 6 a `java/lang/NullPointerException`. -/
def heap0 : Nat → native_obj_t := fun a =>
  if a = 1 then mk_obj arith_class none
  else if a = 2 then mk_obj runtime_class (some 3)
  else if a = 3 then mk_obj string_class (some 4)
  else if a = 4 then mk_char_array string_class [98, 111, 111, 109]
  else if a = 5 then mk_obj runtime_class none
  else mk_obj npe_class none

/-- The exception table of scenarios A and B:
`{0, 10, 20, "ArithmeticException"}`. -/
def table_AB : List excp_table_t :=
  [⟨0, 10, 20, 1⟩]

/-- A machine whose thread runs `main_class` with the given frames. -/
def mk_vm (frames : List stack_frame_t) : VM :=
  { cur_thread := { cls := main_class, frames := frames }
    heap := heap0
    stdout := ""
    calls := [] }

/-- The frame of scenario A: `table_AB` at `pc = 5`, an empty operand stack of
capacity 4. -/
def frame_A : stack_frame_t :=
  mk_frame main_class table_AB 5 4 0

/-- Scenario A: the frame `frame_A` alone. -/
def vm_A : VM :=
  mk_vm [frame_A]

/-- Scenario B: the frame with `table_AB` at `pc = 15`, called from a frame with
the same table at `pc = 7`. -/
def vm_B : VM :=
  mk_vm [mk_frame main_class table_AB 15 4 0, mk_frame main_class table_AB 7 4 2]

/-- Scenarios C and D: one frame without handlers. -/
def vm_C : VM :=
  mk_vm [mk_frame main_class [] 3 4 0]

/-- A runtime that loads no class, allocates nothing and builds constructor
frames without handlers. -/
def env0 : Env :=
  { hb_get_or_load_class := fun _ => none
    gc_obj_alloc := fun _ h => (none, h)
    ctor_frame := fun _ _ => mk_frame main_class [] 0 4 0 }

/-- A runtime that resolves every name to a class of that name, allocates the
object 7 for a resolved class and nothing for a `NULL` class, and builds
constructor frames without handlers. -/
def env1 : Env :=
  { hb_get_or_load_class := fun n => some (mk_class n [])
    gc_obj_alloc := fun cls h =>
      match cls with
      | some c => (some 7, Function.update h 7 (mk_obj c none))
      | none => (none, h)
    ctor_frame := fun _ _ => mk_frame main_class [] 0 4 0 }

/-- The exception table `{0, 10, 20, "java/lang/NullPointerException"}`. -/
def table_N : List excp_table_t :=
  [⟨0, 10, 20, 3⟩]

/-- One frame at `pc = 5` that catches `java/lang/NullPointerException`. -/
def vm_N : VM :=
  mk_vm [mk_frame main_class table_N 5 4 0]

/-- One frame at `pc = 5` with `table_AB` whose operand stack is at capacity:
`sp = max_oprs = 1`. -/
def vm_full : VM :=
  mk_vm [mk_frame main_class table_AB 5 1 1]

/-- A runtime like `env1` whose loader cannot resolve
`IncompatibleClassChangeError`. -/
def env2 : Env :=
  { env1 with
    hb_get_or_load_class := fun n =>
      if n = "IncompatibleClassChangeError" then none else some (mk_class n []) }

/-- The number of entries into `hb_throw_exception` for the reference `eref` in
a record of calls. -/
def throws (eref : Option Nat) (cs : List Call) : Nat :=
  cs.count (Call.hb_throw_exception eref)

/-- The name that the entry's `catch_type` denotes in the constant pool of
the class owning the frame's method: class entry and string are both taken
from `f.cls`. -/
def owner_catch_type_name (f : stack_frame_t) (e : excp_table_t) : String :=
  hb_get_const_str (f.cls.const_pool e.catch_type).name_idx f.cls

/-- A registered class name is not fully qualified: it has no `/`. -/
def bare_name (s : String) : Bool :=
  !(s.data.contains '/')

/-- A runtime like `env1` whose allocator always fails. -/
def env_oom : Env :=
  { env1 with gc_obj_alloc := fun _ h => (none, h) }

/-- A library class whose constant pool holds `ArithmeticException` at index 6,
where the pool of `main_class` holds no string. -/
def lib_class : java_class_t :=
  mk_class "Lib" ["", "", "", "", "", "", "ArithmeticException"]

/-- A frame of a method of `lib_class`, at `pc = 5`, whose only entry
`{0, 10, 20, 5}` names `ArithmeticException` in the pool of `lib_class`. -/
def frame_lib : stack_frame_t :=
  mk_frame lib_class [⟨0, 10, 20, 5⟩] 5 4 0

/-- The thread of `main_class` running the frame `frame_lib`. -/
def vm_lib : VM :=
  mk_vm [frame_lib]

/-- The heap `heap0` with the character array 4 replaced by `chars`. -/
def heap_chars (chars : List Nat) : Nat → native_obj_t :=
  Function.update heap0 4 (mk_char_array string_class chars)

/-- The heap `heap0` with the string object 3 replaced by one whose field 0 is
`NULL`. -/
def heap_broken : Nat → native_obj_t :=
  Function.update heap0 3 (mk_obj string_class none)

/-! ## The loop over one exception table -/

theorem excp_table_loop_eq_none (tcls : java_class_t) (f : stack_frame_t) (eref : Option Nat)
    (name : String) (tbl : List excp_table_t) :
    excp_table_loop tcls f eref name tbl = none ↔ ∀ e ∈ tbl, ¬ handles tcls name f e := by
  induction tbl with
  | nil => simp [excp_table_loop]
  | cons e es ih =>
    unfold excp_table_loop
    by_cases h1 : name = excp_cand_type_name tcls f e
    · by_cases h2 : f.pc ≥ e.start_pc ∧ f.pc ≤ e.end_pc
      · rw [if_pos h1, if_pos h2]
        constructor
        · intro h; cases h
        · intro h
          exact absurd ⟨h2.1, h2.2, h1.symm⟩ (h e (List.mem_cons_self _ _))
      · rw [if_pos h1, if_neg h2, ih]
        simp only [List.mem_cons, forall_eq_or_imp]
        constructor
        · intro h
          exact ⟨fun hh => h2 ⟨hh.1, hh.2.1⟩, h⟩
        · intro h; exact h.2
    · rw [if_neg h1, ih]
      simp only [List.mem_cons, forall_eq_or_imp]
      constructor
      · intro h
        exact ⟨fun hh => h1 hh.2.2.symm, h⟩
      · intro h; exact h.2

theorem excp_table_loop_first (tcls : java_class_t) (f : stack_frame_t) (eref : Option Nat)
    (name : String) (pre : List excp_table_t) (e : excp_table_t) (post : List excp_table_t)
    (hpre : ∀ x ∈ pre, ¬ handles tcls name f x) (he : handles tcls name f e) :
    excp_table_loop tcls f eref name (pre ++ e :: post)
      = some (install f eref e, (push_val f.op_stack { obj := eref }).2) := by
  induction pre with
  | nil =>
    have h1 : name = excp_cand_type_name tcls f e := he.2.2.symm
    have h2 : f.pc ≥ e.start_pc ∧ f.pc ≤ e.end_pc := ⟨he.1, he.2.1⟩
    simp only [List.nil_append, excp_table_loop, if_pos h1, if_pos h2, install]
  | cons x xs ih =>
    have hx : ¬ handles tcls name f x := hpre x (List.mem_cons_self _ _)
    have ih1 := ih (fun y hy => hpre y (List.mem_cons_of_mem _ hy))
    rw [List.cons_append, excp_table_loop]
    by_cases h1 : name = excp_cand_type_name tcls f x
    · by_cases h2 : f.pc ≥ x.start_pc ∧ f.pc ≤ x.end_pc
      · exact absurd ⟨h2.1, h2.2, h1.symm⟩ hx
      · rw [if_pos h1, if_neg h2, ih1]
    · rw [if_neg h1, ih1]

/-- A list either has no element with a property or splits at the first one. -/
theorem first_split {α : Type} (p : α → Prop) (l : List α) :
    (∀ x ∈ l, ¬ p x) ∨
      ∃ pre x post, l = pre ++ x :: post ∧ (∀ y ∈ pre, ¬ p y) ∧ p x := by
  induction l with
  | nil => left; simp
  | cons a as ih =>
    by_cases ha : p a
    · right; exact ⟨[], a, as, rfl, by simp, ha⟩
    · rcases ih with h | ⟨pre, x, post, hl, hpre, hx⟩
      · left
        intro y hy
        rcases List.mem_cons.mp hy with rfl | hy
        · exact ha
        · exact h y hy
      · right
        refine ⟨a :: pre, x, post, by simp [hl], ?_, hx⟩
        intro y hy
        rcases List.mem_cons.mp hy with rfl | hy
        · exact ha
        · exact hpre y hy

theorem frame_handles_iff_loop (tcls : java_class_t) (f : stack_frame_t) (eref : Option Nat)
    (name : String) :
    ¬ frame_handles tcls name f ↔
      excp_table_loop tcls f eref name f.minfo.code_attr.excp_table = none := by
  rw [excp_table_loop_eq_none]
  unfold frame_handles
  constructor
  · intro h e he hh; exact h ⟨e, he, hh⟩
  · rintro h ⟨e, he, hh⟩; exact h e he hh

/-! ## One call of `hb_throw_exception` on a non-null reference -/

theorem throw_step_match (env : Env) (fuel : Nat) (vm : VM) (a : Nat) (f : stack_frame_t)
    (rest : List stack_frame_t) (f1 : stack_frame_t) (cs : List Call)
    (hfr : vm.cur_thread.frames = f :: rest)
    (hloop : excp_table_loop vm.cur_thread.cls f (some a) (hb_get_class_name (vm.heap a).cls)
      f.minfo.code_attr.excp_table = some (f1, cs)) :
    hb_throw_exception env (fuel + 1) vm (some a) =
      ⟨Status.returned,
       { vm with
         cur_thread := { vm.cur_thread with frames := f1 :: rest }
         calls := vm.calls ++ Call.hb_throw_exception (some a) :: cs }⟩ := by
  rw [hb_throw_exception]
  simp only [VM.call, hfr, hloop, List.append_assoc, List.singleton_append]

theorem throw_step_exit (env : Env) (fuel : Nat) (vm : VM) (a : Nat) (f : stack_frame_t)
    (hfr : vm.cur_thread.frames = [f])
    (hloop : excp_table_loop vm.cur_thread.cls f (some a) (hb_get_class_name (vm.heap a).cls)
      f.minfo.code_attr.excp_table = none) :
    hb_throw_exception env (fuel + 1) vm (some a) =
      ⟨Status.exited EXIT_FAILURE,
       { vm with
         cur_thread := { vm.cur_thread with frames := [] }
         stdout := vm.stdout ++
           report (hb_get_class_name (vm.heap a).cls) (get_excp_str vm.heap a)
         calls := vm.calls ++
           [Call.hb_throw_exception (some a), Call.hb_pop_frame, Call.free] }⟩ := by
  rw [hb_throw_exception]
  simp only [VM.call, hb_pop_frame, hfr, hloop, List.tail_cons, report, List.append_assoc,
    List.singleton_append]
  cases get_excp_str vm.heap a <;> simp

theorem throw_step_pop (env : Env) (fuel : Nat) (vm : VM) (a : Nat) (f g : stack_frame_t)
    (rest : List stack_frame_t)
    (hfr : vm.cur_thread.frames = f :: g :: rest)
    (hloop : excp_table_loop vm.cur_thread.cls f (some a) (hb_get_class_name (vm.heap a).cls)
      f.minfo.code_attr.excp_table = none) :
    hb_throw_exception env (fuel + 1) vm (some a) =
      hb_throw_exception env fuel
        (hb_pop_frame (vm.call (Call.hb_throw_exception (some a)))) (some a) := by
  rw [hb_throw_exception]
  simp only [VM.call, hb_pop_frame, hfr, hloop, List.tail_cons]

/-! ## Unwinding over several frames -/

theorem throw_handled (env : Env) (a : Nat) (pre : List stack_frame_t) :
    ∀ (fuel : Nat) (vm : VM) (f : stack_frame_t) (rest : List stack_frame_t)
      (f1 : stack_frame_t) (cs : List Call),
      vm.cur_thread.frames = pre ++ f :: rest →
      (∀ g ∈ pre, excp_table_loop vm.cur_thread.cls g (some a)
        (hb_get_class_name (vm.heap a).cls) g.minfo.code_attr.excp_table = none) →
      excp_table_loop vm.cur_thread.cls f (some a) (hb_get_class_name (vm.heap a).cls)
        f.minfo.code_attr.excp_table = some (f1, cs) →
      pre.length < fuel →
      hb_throw_exception env fuel vm (some a) =
        ⟨Status.returned,
         { vm with
           cur_thread := { vm.cur_thread with frames := f1 :: rest }
           calls := vm.calls ++
             (unwind_calls (some a) pre.length ++ Call.hb_throw_exception (some a) :: cs) }⟩ := by
  induction pre with
  | nil =>
    intro fuel vm f rest f1 cs hfr _ hloop hfuel
    obtain ⟨k, rfl⟩ : ∃ k, fuel = k + 1 := ⟨fuel - 1, by simp at hfuel; omega⟩
    rw [throw_step_match env k vm a f rest f1 cs (by simpa using hfr) hloop]
    simp [unwind_calls]
  | cons g pre ih =>
    intro fuel vm f rest f1 cs hfr hpre hloop hfuel
    obtain ⟨k, rfl⟩ : ∃ k, fuel = k + 1 := ⟨fuel - 1, by simp at hfuel; omega⟩
    have hg := hpre g (List.mem_cons_self _ _)
    obtain ⟨g2, rest2, h2⟩ : ∃ g2 rest2, pre ++ f :: rest = g2 :: rest2 := by
      cases pre with
      | nil => exact ⟨f, rest, rfl⟩
      | cons x xs => exact ⟨x, xs ++ f :: rest, rfl⟩
    rw [throw_step_pop env k vm a g g2 rest2 (by rw [hfr, List.cons_append, h2]) hg]
    rw [ih k (hb_pop_frame (vm.call (Call.hb_throw_exception (some a)))) f rest f1 cs
      (by simp [hb_pop_frame, VM.call, hfr])
      (fun x hx => hpre x (List.mem_cons_of_mem _ hx)) hloop
      (by simp at hfuel; omega)]
    simp [unwind_calls, hb_pop_frame, VM.call]

theorem throw_uncaught (env : Env) (a : Nat) (frames : List stack_frame_t) :
    ∀ (fuel : Nat) (vm : VM),
      vm.cur_thread.frames = frames → frames ≠ [] →
      (∀ g ∈ frames, excp_table_loop vm.cur_thread.cls g (some a)
        (hb_get_class_name (vm.heap a).cls) g.minfo.code_attr.excp_table = none) →
      frames.length ≤ fuel →
      hb_throw_exception env fuel vm (some a) =
        ⟨Status.exited EXIT_FAILURE,
         { vm with
           cur_thread := { vm.cur_thread with frames := [] }
           stdout := vm.stdout ++
             report (hb_get_class_name (vm.heap a).cls) (get_excp_str vm.heap a)
           calls := vm.calls ++ (unwind_calls (some a) frames.length ++ [Call.free]) }⟩ := by
  induction frames with
  | nil => intro fuel vm _ h; exact absurd rfl h
  | cons g rest ih =>
    intro fuel vm hfr _ hall hfuel
    obtain ⟨k, rfl⟩ : ∃ k, fuel = k + 1 := ⟨fuel - 1, by simp at hfuel; omega⟩
    have hg := hall g (List.mem_cons_self _ _)
    cases rest with
    | nil =>
      rw [throw_step_exit env k vm a g hfr hg]
      simp [unwind_calls]
    | cons g2 rest2 =>
      rw [throw_step_pop env k vm a g g2 rest2 hfr hg]
      rw [ih k (hb_pop_frame (vm.call (Call.hb_throw_exception (some a))))
        (by simp [hb_pop_frame, VM.call, hfr]) (by simp)
        (fun x hx => hall x (List.mem_cons_of_mem _ hx)) (by simp at hfuel ⊢; omega)]
      simp [unwind_calls, hb_pop_frame, VM.call]

theorem pops_unwind_calls (eref : Option Nat) (n : Nat) :
    pops (unwind_calls eref n) = n := by
  induction n with
  | zero => rfl
  | succ n ih =>
    simp only [pops] at ih
    simp [unwind_calls, pops, List.count_cons, ih]

theorem pops_push_val (stack : op_stack_t) (v : var_t) : pops (push_val stack v).2 = 0 := by
  unfold push_val pops
  by_cases h : stack.max_oprs < stack.sp + 1 <;> simp [h]

theorem loop_of_frame_handles (tcls : java_class_t) (f : stack_frame_t) (eref : Option Nat)
    (name : String) (h : frame_handles tcls name f) :
    ∃ pre e post,
      f.minfo.code_attr.excp_table = pre ++ e :: post ∧
      (∀ x ∈ pre, ¬ handles tcls name f x) ∧ handles tcls name f e ∧
      excp_table_loop tcls f eref name f.minfo.code_attr.excp_table
        = some (install f eref e, (push_val f.op_stack { obj := eref }).2) := by
  rcases first_split (handles tcls name f) f.minfo.code_attr.excp_table with hno | hsplit
  · obtain ⟨e, he, hh⟩ := h
    exact absurd hh (hno e he)
  · obtain ⟨pre, e, post, htbl, hpre, he⟩ := hsplit
    refine ⟨pre, e, post, htbl, hpre, he, ?_⟩
    rw [htbl]
    exact excp_table_loop_first tcls f eref name pre e post hpre he

/-! ## C1: a handler in the current frame -/

/-- C2: whenever `hb_throw_exception`, run on a non-null object, resumes at a
handler, the frame that receives the handler is a frame `f` of the stack at the
call (the raising frame, `d = 0`, or an ancestor reached by `d` pops), still
with the program counter it held then, and the selected entry `e` of its table
satisfies `start_pc <= pc <= end_pc` for that counter and has the thrown class
name as resolved catch-type name. -/
theorem C2_selected_entry_in_range (env : Env) (fuel : Nat) (vm : VM) (a : Nat)
    (hret : (hb_throw_exception env fuel vm (some a)).status = Status.returned) :
    ∃ d f rest e f1,
      vm.cur_thread.frames.drop d = f :: rest ∧
      e ∈ f.minfo.code_attr.excp_table ∧
      e.start_pc ≤ f.pc ∧ f.pc ≤ e.end_pc ∧
      excp_cand_type_name vm.cur_thread.cls f e = hb_get_class_name (vm.heap a).cls ∧
      (hb_throw_exception env fuel vm (some a)).vm.cur_thread.frames = f1 :: rest ∧
      f1.pc = e.handler_pc ∧ f1.minfo = f.minfo ∧ f1.cls = f.cls := by
  induction fuel generalizing vm with
  | zero =>
    rw [hb_throw_exception] at hret
    exact Status.noConfusion hret
  | succ k ih =>
    cases hfr : vm.cur_thread.frames with
    | nil =>
      rw [hb_throw_exception] at hret
      simp only [VM.call, hfr] at hret
      exact Status.noConfusion hret
    | cons f rest =>
      by_cases hh : frame_handles vm.cur_thread.cls (hb_get_class_name (vm.heap a).cls) f
      · obtain ⟨pre, e, post, htbl, _, he, hloop⟩ :=
          loop_of_frame_handles vm.cur_thread.cls f (some a) _ hh
        refine ⟨0, f, rest, e, install f (some a) e, by simp, ?_, he.1, he.2.1, he.2.2, ?_,
          rfl, rfl, rfl⟩
        · rw [htbl]; simp
        · rw [throw_step_match env k vm a f rest _ _ hfr hloop]
      · have hloop := (frame_handles_iff_loop vm.cur_thread.cls f (some a) _).mp hh
        cases rest with
        | nil =>
          rw [throw_step_exit env k vm a f hfr hloop] at hret
          exact Status.noConfusion hret
        | cons g rest2 =>
          rw [throw_step_pop env k vm a f g rest2 hfr hloop] at hret ⊢
          obtain ⟨d, f2, r2, e, f1, hd, hmem, h1, h2, h3, h4, h5⟩ := ih _ hret
          refine ⟨d + 1, f2, r2, e, f1, ?_, hmem, h1, h2, h3, h4, h5⟩
          simpa [hb_pop_frame, VM.call, hfr] using hd

/-- Scenario B: the raising frame holds `pc = 15`, outside `[0, 10]`; its entry
is not selected although the class name matches, and the handler is taken in
the caller, whose `pc = 7` lies in the range. -/
theorem C2_witness :
    (hb_throw_exception env0 2 vm_B (some 1)).status = Status.returned ∧
    ∃ d f rest e f1,
      vm_B.cur_thread.frames.drop d = f :: rest ∧
      e ∈ f.minfo.code_attr.excp_table ∧
      e.start_pc ≤ f.pc ∧ f.pc ≤ e.end_pc ∧
      excp_cand_type_name vm_B.cur_thread.cls f e = hb_get_class_name (vm_B.heap 1).cls ∧
      (hb_throw_exception env0 2 vm_B (some 1)).vm.cur_thread.frames = f1 :: rest ∧
      f1.pc = e.handler_pc ∧ f1.minfo = f.minfo ∧ f1.cls = f.cls :=
  ⟨by decide, C2_selected_entry_in_range env0 2 vm_B 1 (by decide)⟩

/-! ## C3: the null reference -/

/-- A run of `hb_throw_exception` on the `NULL` reference never hands control
back: when the synthesized exception is caught, the body goes on to
`eref->heap_ptr`. -/
theorem throw_null_never_returns (env : Env) (fuel : Nat) (vm : VM) :
    (hb_throw_exception env fuel vm none).status ≠ Status.returned := by
  cases fuel with
  | zero =>
    rw [hb_throw_exception]
    exact fun h => Status.noConfusion h
  | succ k =>
    rw [hb_throw_exception]
    split
    · exact fun h => Status.noConfusion h
    · rename_i hne
      exact fun h => hne h

/-- C3, evaluated at `eref = NULL` in a frame that catches
`java/lang/NullPointerException` at its pc: `hb_throw_and_create_excp
(EXCP_NULL_PTR)` is called and returns with the handler installed (`pc = 20`,
the fresh object 7 on the operand stack), and `hb_throw_exception` then does
not return but dereferences the null reference. -/
theorem C3_null_reference_falls_through :
    (hb_throw_and_create_excp env1 3 (vm_N.call (Call.hb_throw_exception none))
        EXCP_NULL_PTR).status = Status.returned ∧
    (hb_throw_exception env1 4 vm_N none).status = Status.fault ∧
    (hb_throw_exception env1 4 vm_N none).vm.cur_thread.frames.map
      (fun f => (f.pc, f.op_stack.sp, (f.op_stack.oprs f.op_stack.sp).obj))
        = [(20, 1, some 7)] ∧
    (hb_throw_exception env1 4 vm_N none).vm.calls =
      [Call.hb_throw_exception none,
       Call.hb_get_or_load_class "java/lang/NullPointerException",
       Call.gc_obj_alloc (some "java/lang/NullPointerException"),
       Call.hb_push_ctor_frame (some 7),
       Call.hb_throw_exception (some 7),
       Call.hb_pop_frame,
       Call.hb_throw_exception (some 7)] := by
  refine ⟨by decide, by decide, by decide, by decide⟩

/-! ## C4: the number of pops -/

theorem pops_append (xs ys : List Call) : pops (xs ++ ys) = pops xs + pops ys := by
  simp [pops, List.count_append]

/-- The result when the first frame with a handler lies below the frames
`pre`, none of which has one. -/
theorem throw_handled_at (env : Env) (a : Nat) (fuel : Nat) (vm : VM)
    (pre : List stack_frame_t) (f : stack_frame_t) (rest : List stack_frame_t)
    (hfr : vm.cur_thread.frames = pre ++ f :: rest)
    (hpre : ∀ g ∈ pre, ¬ frame_handles vm.cur_thread.cls (hb_get_class_name (vm.heap a).cls) g)
    (hf : frame_handles vm.cur_thread.cls (hb_get_class_name (vm.heap a).cls) f)
    (hfuel : pre.length < fuel) :
    ∃ e, e ∈ f.minfo.code_attr.excp_table ∧
      handles vm.cur_thread.cls (hb_get_class_name (vm.heap a).cls) f e ∧
      hb_throw_exception env fuel vm (some a) =
        ⟨Status.returned,
         { vm with
           cur_thread := { vm.cur_thread with frames := install f (some a) e :: rest }
           calls := vm.calls ++
             (unwind_calls (some a) pre.length ++
               Call.hb_throw_exception (some a) :: (push_val f.op_stack { obj := some a }).2) }⟩ := by
  obtain ⟨p, e, q, htbl, _, he, hloop⟩ :=
    loop_of_frame_handles vm.cur_thread.cls f (some a) _ hf
  refine ⟨e, by rw [htbl]; simp, he, ?_⟩
  exact throw_handled env a pre fuel vm f rest _ _ hfr
    (fun g hg => (frame_handles_iff_loop _ g (some a) _).mp (hpre g hg)) hloop hfuel

/-- The result when no frame of the stack has a handler. -/
theorem throw_uncaught_at (env : Env) (a : Nat) (fuel : Nat) (vm : VM)
    (hne : vm.cur_thread.frames ≠ [])
    (hall : ∀ g ∈ vm.cur_thread.frames,
      ¬ frame_handles vm.cur_thread.cls (hb_get_class_name (vm.heap a).cls) g)
    (hfuel : vm.cur_thread.frames.length ≤ fuel) :
    hb_throw_exception env fuel vm (some a) =
      ⟨Status.exited EXIT_FAILURE,
       { vm with
         cur_thread := { vm.cur_thread with frames := [] }
         stdout := vm.stdout ++
           report (hb_get_class_name (vm.heap a).cls) (get_excp_str vm.heap a)
         calls := vm.calls ++
           (unwind_calls (some a) vm.cur_thread.frames.length ++ [Call.free]) }⟩ :=
  throw_uncaught env a vm.cur_thread.frames fuel vm rfl hne
    (fun g hg => (frame_handles_iff_loop _ g (some a) _).mp (hall g hg)) hfuel

/-- With fuel for one call per frame, the result on a non-null reference does
not depend on the fuel. -/
theorem throw_fuel_indep (env : Env) (a : Nat) (vm : VM) (fuel fuel2 : Nat)
    (hne : vm.cur_thread.frames ≠ [])
    (h1 : vm.cur_thread.frames.length ≤ fuel) (h2 : vm.cur_thread.frames.length ≤ fuel2) :
    hb_throw_exception env fuel vm (some a) = hb_throw_exception env fuel2 vm (some a) := by
  rcases first_split (frame_handles vm.cur_thread.cls (hb_get_class_name (vm.heap a).cls))
    vm.cur_thread.frames with hall | ⟨pre, f, rest, hfr, hpre, hf⟩
  · rw [throw_uncaught_at env a fuel vm hne hall h1,
      throw_uncaught_at env a fuel2 vm hne hall h2]
  · have hlen := congrArg List.length hfr
    simp at hlen
    obtain ⟨p, e, q, htbl, _, he, hloop⟩ :=
      loop_of_frame_handles vm.cur_thread.cls f (some a) _ hf
    have hp : ∀ g ∈ pre, excp_table_loop vm.cur_thread.cls g (some a)
        (hb_get_class_name (vm.heap a).cls) g.minfo.code_attr.excp_table = none :=
      fun g hg => (frame_handles_iff_loop _ g (some a) _).mp (hpre g hg)
    rw [throw_handled env a pre fuel vm f rest _ _ hfr hp hloop (by omega),
      throw_handled env a pre fuel2 vm f rest _ _ hfr hp hloop (by omega)]

/-- C7 as stated fails in scenario C (class `java/lang/RuntimeException`,
message `boom`, no handler): the text written is neither the stated line nor
the stated line with a newline; a space stands between the message and the
newline. -/
theorem C7_counterexample :
    get_excp_str vm_C.heap 2 = some [98, 111, 111, 109, 0] ∧
    c_string [98, 111, 111, 109, 0] = "boom" ∧
    (hb_throw_exception env0 1 vm_C (some 2)).status = Status.exited EXIT_FAILURE ∧
    (hb_throw_exception env0 1 vm_C (some 2)).vm.stdout
      ≠ "Exception in thread \"main\" java/lang/RuntimeException: boom" ∧
    (hb_throw_exception env0 1 vm_C (some 2)).vm.stdout
      ≠ "Exception in thread \"main\" java/lang/RuntimeException: boom\n" ∧
    (hb_throw_exception env0 1 vm_C (some 2)).vm.stdout
      = "Exception in thread \"main\" java/lang/RuntimeException: boom \n" := by
  refine ⟨by decide, by decide, by decide, by decide, by decide, by decide⟩

/-- C7, amended: on stack exhaustion (no frame has a handler) for an object
whose class name is `C`, the text written is `Exception in thread "main" C: M`,
a space and a newline when `get_excp_str` yields a buffer whose string is `M`,
and `Exception in thread "main" C`, a space and a newline, without colon and
message, when it yields none. -/
theorem C7_report_text (env : Env) (fuel : Nat) (vm : VM) (a : Nat)
    (hne : vm.cur_thread.frames ≠ [])
    (hfuel : vm.cur_thread.frames.length ≤ fuel)
    (hall : ∀ g ∈ vm.cur_thread.frames,
      ¬ frame_handles vm.cur_thread.cls (hb_get_class_name (vm.heap a).cls) g) :
    (∀ buf, get_excp_str vm.heap a = some buf →
      (hb_throw_exception env fuel vm (some a)).vm.stdout =
        vm.stdout ++ ("Exception in thread \"main\" " ++ hb_get_class_name (vm.heap a).cls
          ++ ": " ++ c_string buf ++ " \n")) ∧
    (get_excp_str vm.heap a = none →
      (hb_throw_exception env fuel vm (some a)).vm.stdout =
        vm.stdout ++ ("Exception in thread \"main\" " ++ hb_get_class_name (vm.heap a).cls
          ++ " \n")) := by
  rw [throw_uncaught_at env a fuel vm hne hall hfuel]
  constructor
  · intro buf hbuf
    simp only [hbuf, report]
  · intro hnone
    simp only [hnone, report]

/-- Scenarios C and D: with the message `boom` the text ends in `: boom`, a
space and a newline; without a message it has no colon. -/
theorem C7_witness :
    (vm_C.cur_thread.frames ≠ [] ∧ vm_C.cur_thread.frames.length ≤ 1 ∧
      get_excp_str vm_C.heap 2 = some [98, 111, 111, 109, 0] ∧
      get_excp_str vm_C.heap 5 = none) ∧
    (hb_throw_exception env0 1 vm_C (some 2)).vm.stdout =
      vm_C.stdout ++ ("Exception in thread \"main\" " ++ hb_get_class_name (vm_C.heap 2).cls
        ++ ": " ++ c_string [98, 111, 111, 109, 0] ++ " \n") ∧
    (hb_throw_exception env0 1 vm_C (some 5)).vm.stdout =
      vm_C.stdout ++ ("Exception in thread \"main\" " ++ hb_get_class_name (vm_C.heap 5).cls
        ++ " \n") ∧
    (hb_throw_exception env0 1 vm_C (some 5)).vm.stdout
      = "Exception in thread \"main\" java/lang/RuntimeException \n" :=
  ⟨⟨List.cons_ne_nil _ _, by decide, by decide, by decide⟩,
   (C7_report_text env0 1 vm_C 2 (List.cons_ne_nil _ _) (by decide) (by decide)).1
     [98, 111, 111, 109, 0] (by decide),
   (C7_report_text env0 1 vm_C 5 (List.cons_ne_nil _ _) (by decide) (by decide)).2
     (by decide),
   by decide⟩

/-! ## C8: the capacity of the operand stack -/

/-- C8, evaluated on a frame whose operand stack is at capacity
(`sp = max_oprs = 1`) and whose table matches: `push_val` warns and goes on,
the reference is written to slot 2 and `sp` becomes 2, above `max_oprs`. -/
theorem C8_push_beyond_capacity :
    vm_full.cur_thread.frames.map (fun f => (f.op_stack.sp, f.op_stack.max_oprs)) = [(1, 1)] ∧
    (hb_throw_exception env0 1 vm_full (some 1)).status = Status.returned ∧
    (hb_throw_exception env0 1 vm_full (some 1)).vm.cur_thread.frames.map
      (fun f => (f.pc, f.op_stack.sp, f.op_stack.max_oprs, (f.op_stack.oprs 2).obj))
        = [(20, 2, 1, some 1)] ∧
    (hb_throw_exception env0 1 vm_full (some 1)).vm.calls =
      [Call.hb_throw_exception (some 1), Call.HB_WARN "Stack overflow!"] := by
  refine ⟨by decide, by decide, by decide, by decide⟩

/-- On every stack at or above capacity `push_val` still writes the value to
the next slot and increments `sp`. -/
theorem push_val_at_capacity (stack : op_stack_t) (v : var_t)
    (h : stack.max_oprs ≤ stack.sp) :
    (push_val stack v).1.sp = stack.sp + 1 ∧
    (push_val stack v).1.max_oprs < (push_val stack v).1.sp ∧
    (push_val stack v).1.oprs (stack.sp + 1) = v ∧
    (push_val stack v).2 = [Call.HB_WARN "Stack overflow!"] := by
  have h1 : stack.max_oprs < stack.sp + 1 := by omega
  simp [push_val, h1]

/-! ## C9: raising by kind -/

/-- C10, evaluated for the kind 3, `IncompatibleClassChangeError`, in a runtime
whose loader cannot resolve that name: `hb_throw_and_create_excp` passes the
`NULL` class to the allocator, pushes a constructor frame for the `NULL` result
and enters `hb_throw_exception`; the run ends with the report of an uncaught
`java/lang/NullPointerException`. -/
theorem C10_unresolved_class_not_checked :
    env2.hb_get_or_load_class (excp_strs_at 3) = none ∧
    (hb_throw_and_create_excp env2 6 vm_A 3).vm.calls.take 4 =
      [Call.hb_get_or_load_class "IncompatibleClassChangeError",
       Call.gc_obj_alloc none,
       Call.hb_push_ctor_frame none,
       Call.hb_throw_exception none] ∧
    (hb_throw_and_create_excp env2 6 vm_A 3).status = Status.exited EXIT_FAILURE ∧
    (hb_throw_and_create_excp env2 6 vm_A 3).vm.stdout
      = "Exception in thread \"main\" java/lang/NullPointerException \n" := by
  refine ⟨rfl, by decide, by decide, by decide⟩

/-! ## C11: allocation failure -/

/-- With an allocator that always fails, neither function ever finishes: every
run uses up its fuel. -/
theorem alloc_failure_diverges (env : Env)
    (halloc : ∀ c h, (env.gc_obj_alloc c h).1 = none) (fuel : Nat) :
    (∀ vm k, (hb_throw_and_create_excp env fuel vm k).status = Status.out_of_fuel) ∧
    (∀ vm, (hb_throw_exception env fuel vm none).status = Status.out_of_fuel) := by
  induction fuel with
  | zero =>
    constructor
    · intro vm k; rw [hb_throw_and_create_excp]
    · intro vm; rw [hb_throw_exception]
  | succ n ih =>
    constructor
    · intro vm k
      rw [hb_throw_and_create_excp]
      simp only [halloc]
      exact ih.2 _
    · intro vm
      rw [hb_throw_exception]
      have h := ih.1 (vm.call (Call.hb_throw_exception none)) EXCP_NULL_PTR
      simp only [h]

/-- C11, evaluated in a runtime whose allocator fails, for the kind 7
(`java/lang/ArithmeticException`) and for the out-of-memory kind 5:
`hb_throw_and_create_excp` goes on with the `NULL` instance, pushes a
constructor frame for it and enters `hb_throw_exception (NULL)`, which
synthesizes the null-pointer kind; the class `java/lang/OutOfMemoryError` is
never asked for in the first case, and in both cases the recursion does not
stop. -/
theorem C11_alloc_failure_not_checked :
    (∀ c h, (env_oom.gc_obj_alloc c h).1 = none) ∧
    (hb_throw_and_create_excp env_oom 3 vm_A 7).vm.calls =
      [Call.hb_get_or_load_class "java/lang/ArithmeticException",
       Call.gc_obj_alloc (some "java/lang/ArithmeticException"),
       Call.hb_push_ctor_frame none,
       Call.hb_throw_exception none,
       Call.hb_get_or_load_class "java/lang/NullPointerException",
       Call.gc_obj_alloc (some "java/lang/NullPointerException"),
       Call.hb_push_ctor_frame none] ∧
    Call.hb_get_or_load_class "java/lang/OutOfMemoryError"
      ∉ (hb_throw_and_create_excp env_oom 9 vm_A 7).vm.calls ∧
    (hb_throw_and_create_excp env_oom 3 vm_A 5).vm.calls =
      [Call.hb_get_or_load_class "java/lang/OutOfMemoryError",
       Call.gc_obj_alloc (some "java/lang/OutOfMemoryError"),
       Call.hb_push_ctor_frame none,
       Call.hb_throw_exception none,
       Call.hb_get_or_load_class "java/lang/NullPointerException",
       Call.gc_obj_alloc (some "java/lang/NullPointerException"),
       Call.hb_push_ctor_frame none] ∧
    (∀ fuel, (hb_throw_and_create_excp env_oom fuel vm_A 7).status = Status.out_of_fuel) ∧
    (∀ fuel, (hb_throw_and_create_excp env_oom fuel vm_A 5).status = Status.out_of_fuel) := by
  have hall : ∀ c h, (env_oom.gc_obj_alloc c h).1 = none := fun _ _ => rfl
  refine ⟨hall, by decide, by decide, by decide, ?_, ?_⟩
  · intro fuel; exact (alloc_failure_diverges env_oom hall fuel).1 vm_A 7
  · intro fuel; exact (alloc_failure_diverges env_oom hall fuel).1 vm_A 5

/-! ## C12: the message is copied -/

/-- The buffer `get_excp_str` fills when both references of the chain are
there. -/
theorem get_excp_str_some (heap : Nat → native_obj_t) (eref s r : Nat)
    (hs : ((heap eref).fields 0).obj = some s) (hr : ((heap s).fields 0).obj = some r) :
    get_excp_str heap eref =
      some ((List.range (heap r).flags.array.length).map
        (fun i => ((heap r).fields i).char_val % 256) ++ [0]) := by
  simp only [get_excp_str, hs, hr]

/-- Chars that are not `0`, followed by a `0`, are a C string of just these
chars. -/
theorem takeWhile_terminated (l : List Nat) (h : ∀ x ∈ l, x ≠ 0) :
    (l ++ [0]).takeWhile (fun c => c != 0) = l := by
  induction l with
  | nil => simp
  | cons x xs ih =>
    have hx : x ≠ 0 := h x (List.mem_cons_self _ _)
    have ih1 := ih (fun y hy => h y (List.mem_cons_of_mem _ hy))
    simp [List.takeWhile_cons, hx, ih1]

/-- C12 as stated fails for the object 2 whose message is backed by the
character array `[98, 300, 0, 111]` of length 4: the buffer returned is
`[98, 44, 0, 111, 0]`, so its char at index 1 is 44 and not the array's
character 300, and as a string it has 2 chars and not 4. -/
theorem C12_counterexample :
    (((heap_chars [98, 300, 0, 111] 2).fields 0).obj = some 3 ∧
      ((heap_chars [98, 300, 0, 111] 3).fields 0).obj = some 4 ∧
      (heap_chars [98, 300, 0, 111] 4).flags.array.length = 4 ∧
      ((heap_chars [98, 300, 0, 111] 4).fields 1).char_val = 300) ∧
    get_excp_str (heap_chars [98, 300, 0, 111]) 2 = some [98, 44, 0, 111, 0] ∧
    ([98, 44, 0, 111, 0].takeWhile (fun c => c != 0)).length = 2 ∧
    ¬ (∃ buf, get_excp_str (heap_chars [98, 300, 0, 111]) 2 = some buf ∧
        buf.length = 4 + 1 ∧
        (∀ i, i < 4 →
          buf[i]? = some ((heap_chars [98, 300, 0, 111] 4).fields i).char_val) ∧
        buf[4]? = some 0 ∧
        (buf.takeWhile (fun c => c != 0)).length = 4) := by
  have hres : get_excp_str (heap_chars [98, 300, 0, 111]) 2 = some [98, 44, 0, 111, 0] := by
    decide
  refine ⟨⟨rfl, rfl, rfl, rfl⟩, hres, by decide, ?_⟩
  rintro ⟨buf, hbuf, _, hall, _, _⟩
  rw [hres] at hbuf
  have hb : buf = [98, 44, 0, 111, 0] := (Option.some.inj hbuf).symm
  subst hb
  have h1 := hall 1 (by decide)
  have h2 : ((heap_chars [98, 300, 0, 111] 4).fields 1).char_val = 300 := rfl
  rw [h2] at h1
  exact absurd h1 (by decide)

/-- C12, amended: for an exception object whose field 0 references a string
object `s` whose field 0 references a character array `r` of length `n`,
`get_excp_str` returns a buffer of `n + 1` chars: for every `i < n` the `i`-th
is the array's `i`-th character as stored into a C `char`, that is its value
modulo 256 (the character itself when it is below 256), and the char at index
`n` is the terminating `0`; when no copied char is `0`, the buffer is a string
of exactly `n` chars. -/
theorem C12_message_copied (heap : Nat → native_obj_t) (eref s r : Nat)
    (hs : ((heap eref).fields 0).obj = some s) (hr : ((heap s).fields 0).obj = some r) :
    ∃ buf, get_excp_str heap eref = some buf ∧
      buf.length = (heap r).flags.array.length + 1 ∧
      (∀ i, i < (heap r).flags.array.length →
        buf[i]? = some (((heap r).fields i).char_val % 256)) ∧
      (∀ i, i < (heap r).flags.array.length → ((heap r).fields i).char_val < 256 →
        buf[i]? = some ((heap r).fields i).char_val) ∧
      buf[(heap r).flags.array.length]? = some 0 ∧
      ((∀ i, i < (heap r).flags.array.length → ((heap r).fields i).char_val % 256 ≠ 0) →
        (buf.takeWhile (fun c => c != 0)).length = (heap r).flags.array.length) := by
  refine ⟨_, get_excp_str_some heap eref s r hs hr, by simp, ?_, ?_, ?_, ?_⟩
  · intro i hi
    rw [List.getElem?_append_left (by simpa using hi)]
    simp [List.getElem?_range hi]
  · intro i hi hfit
    rw [List.getElem?_append_left (by simpa using hi)]
    simp [List.getElem?_range hi, Nat.mod_eq_of_lt hfit]
  · rw [List.getElem?_append_right (by simp)]
    simp
  · intro hnz
    rw [takeWhile_terminated]
    · simp
    · intro x hx
      obtain ⟨i, hi, rfl⟩ := List.mem_map.mp hx
      exact hnz i (List.mem_range.mp hi)

/-- The object 2 of `heap0`: message string 3 backed by the character array 4,
`boom`: the buffer is `b`, `o`, `o`, `m`, `0`. -/
theorem C12_witness :
    (((heap0 2).fields 0).obj = some 3 ∧ ((heap0 3).fields 0).obj = some 4) ∧
    (∃ buf, get_excp_str heap0 2 = some buf ∧
      buf.length = (heap0 4).flags.array.length + 1 ∧
      (∀ i, i < (heap0 4).flags.array.length →
        buf[i]? = some (((heap0 4).fields i).char_val % 256)) ∧
      (∀ i, i < (heap0 4).flags.array.length → ((heap0 4).fields i).char_val < 256 →
        buf[i]? = some ((heap0 4).fields i).char_val) ∧
      buf[(heap0 4).flags.array.length]? = some 0 ∧
      ((∀ i, i < (heap0 4).flags.array.length → ((heap0 4).fields i).char_val % 256 ≠ 0) →
        (buf.takeWhile (fun c => c != 0)).length = (heap0 4).flags.array.length)) ∧
    get_excp_str heap0 2 = some [98, 111, 111, 109, 0] :=
  ⟨⟨rfl, rfl⟩, C12_message_copied heap0 2 3 4 rfl rfl, by decide⟩

/-! ## C13: no message -/

/-- C13: for an exception object whose field 0 is `NULL`, and for one whose
field 0 references a string object whose field 0 is `NULL`, `get_excp_str`
returns `NULL`; the result is the same on every heap that agrees on these one
or two objects, whatever any character storage holds. -/
theorem C13_absent_message (heap : Nat → native_obj_t) (eref : Nat) :
    (((heap eref).fields 0).obj = none →
      get_excp_str heap eref = none ∧
      ∀ heap2 : Nat → native_obj_t, heap2 eref = heap eref →
        get_excp_str heap2 eref = none) ∧
    (∀ s, ((heap eref).fields 0).obj = some s → ((heap s).fields 0).obj = none →
      get_excp_str heap eref = none ∧
      ∀ heap2 : Nat → native_obj_t, heap2 eref = heap eref → heap2 s = heap s →
        get_excp_str heap2 eref = none) := by
  constructor
  · intro h
    refine ⟨by simp only [get_excp_str, h], ?_⟩
    intro heap2 h2
    simp only [get_excp_str, h2, h]
  · intro s hs hr
    refine ⟨by simp only [get_excp_str, hs, hr], ?_⟩
    intro heap2 h2 h3
    simp only [get_excp_str, h2, hs, h3, hr]

/-- The object 1 of `heap0` has no message string; the object 2 of
`heap_broken` has a message string without character array. -/
theorem C13_witness :
    (((heap0 1).fields 0).obj = none ∧
      ((heap_broken 2).fields 0).obj = some 3 ∧ ((heap_broken 3).fields 0).obj = none) ∧
    get_excp_str heap0 1 = none ∧
    get_excp_str heap_broken 2 = none :=
  ⟨⟨rfl, rfl, rfl⟩,
   ((C13_absent_message heap0 1).1 rfl).1,
   ((C13_absent_message heap_broken 2).2 3 rfl rfl).1⟩

/-! ## C16: extraction reads only the message chain -/

/-- C16: `get_excp_str` takes the heap as it is and yields only the buffer, and
what it yields is fixed by the exception object, its message string object and
that string's character array: on two heaps that agree on these (an unmodified
object, whatever else happened between the two calls) it returns equal
buffers, or no message both times. -/
theorem C16_extraction_idempotent (h1 h2 : Nat → native_obj_t) (eref : Nat)
    (he : h2 eref = h1 eref)
    (hs : ∀ s, ((h1 eref).fields 0).obj = some s → h2 s = h1 s)
    (hr : ∀ s r, ((h1 eref).fields 0).obj = some s → ((h1 s).fields 0).obj = some r →
      h2 r = h1 r) :
    get_excp_str h2 eref = get_excp_str h1 eref := by
  cases hf : ((h1 eref).fields 0).obj with
  | none => simp only [get_excp_str, he, hf]
  | some s =>
    have h2s := hs s hf
    cases hg : ((h1 s).fields 0).obj with
    | none => simp only [get_excp_str, he, hf, h2s, hg]
    | some r =>
      have h2r := hr s r hf hg
      simp only [get_excp_str, he, hf, h2s, hg, h2r]

/-- Two calls on the object 2, the heap of the second call holding a further
object at 9: both return the buffer of `boom`. -/
theorem C16_witness :
    Function.update heap0 9 (mk_obj string_class none) 2 = heap0 2 ∧
    get_excp_str (Function.update heap0 9 (mk_obj string_class none)) 2
      = get_excp_str heap0 2 ∧
    get_excp_str heap0 2 = some [98, 111, 111, 109, 0] :=
  ⟨rfl,
   C16_extraction_idempotent heap0 (Function.update heap0 9 (mk_obj string_class none)) 2 rfl
     (fun s h => by
       have h3 : s = 3 := (Option.some.inj h).symm
       subst h3; rfl)
     (fun s r h g => by
       have h3 : s = 3 := (Option.some.inj h).symm
       subst h3
       have h4 : r = 4 := (Option.some.inj g).symm
       subst h4; rfl),
   by decide⟩

/-! ## C14: reverse lookup in the registry -/

/-- The function `strstr` finds an occurrence exactly when the needle is a
contiguous part of the haystack. -/
theorem strstr_isSome_iff (hay needle : List Char) :
    (strstr hay needle).isSome = true ↔ needle <:+: hay := by
  induction hay with
  | nil =>
    unfold strstr
    by_cases h : needle = []
    · simp [h]
    · simp [h]
  | cons c cs ih =>
    unfold strstr
    by_cases h : needle.isPrefixOf (c :: cs) = true
    · rw [if_pos h]
      simp only [Option.isSome_some, true_iff]
      exact (List.isPrefixOf_iff_prefix.mp h).isInfix
    · have hm : (Option.map (fun k => k + 1) (strstr cs needle)).isSome
          = (strstr cs needle).isSome := by
        cases strstr cs needle <;> rfl
      rw [if_neg h, hm, ih, List.infix_cons_iff]
      constructor
      · intro hh; exact Or.inr hh
      · rintro (hp | hi)
        · exact absurd (List.isPrefixOf_iff_prefix.mpr hp) h
        · exact hi

theorem lookup_loop_none (str : String) (l : List String) (i : Nat)
    (h : ∀ s ∈ l, ¬ str.data <:+: s.data) :
    hb_excp_str_to_type_loop str l i = -1 := by
  induction l generalizing i with
  | nil => rfl
  | cons s rest ih =>
    have hs : ¬ (strstr s.data str.data).isSome = true :=
      fun hh => h s (List.mem_cons_self _ _) ((strstr_isSome_iff _ _).mp hh)
    rw [hb_excp_str_to_type_loop, if_neg hs]
    exact ih (i + 1) (fun t ht => h t (List.mem_cons_of_mem _ ht))

theorem lookup_loop_first (str : String) (pre : List String) (s : String)
    (post : List String) (i : Nat)
    (hpre : ∀ t ∈ pre, ¬ str.data <:+: t.data) (hs : str.data <:+: s.data) :
    hb_excp_str_to_type_loop str (pre ++ s :: post) i = ((i + pre.length : Nat) : Int) := by
  induction pre generalizing i with
  | nil =>
    have h1 : (strstr s.data str.data).isSome = true := (strstr_isSome_iff _ _).mpr hs
    rw [List.nil_append, hb_excp_str_to_type_loop, if_pos h1]
    simp
  | cons x xs ih =>
    have hx : ¬ (strstr x.data str.data).isSome = true :=
      fun hh => hpre x (List.mem_cons_self _ _) ((strstr_isSome_iff _ _).mp hh)
    rw [List.cons_append, hb_excp_str_to_type_loop, if_neg hx,
      ih (i + 1) (fun t ht => hpre t (List.mem_cons_of_mem _ ht))]
    simp only [List.length_cons]
    congr 1
    omega

/-- The loop from index 0 over any table: it yields `i` exactly for the
smallest index whose entry contains the fragment, and `-1` exactly when no
entry contains it. -/
theorem lookup_loop_spec (str : String) (l : List String) :
    (∀ i : Nat, hb_excp_str_to_type_loop str l 0 = (i : Int) ↔
      (∃ s, l[i]? = some s ∧ str.data <:+: s.data) ∧
      ∀ j, j < i → ∀ t, l[j]? = some t → ¬ str.data <:+: t.data) ∧
    (hb_excp_str_to_type_loop str l 0 = -1 ↔ ∀ s ∈ l, ¬ str.data <:+: s.data) := by
  rcases first_split (fun s : String => str.data <:+: s.data) l with
    hall | ⟨pre, s, post, hl, hpre, hs⟩
  · have hres := lookup_loop_none str l 0 hall
    refine ⟨fun i => ⟨fun h => ?_, fun h => ?_⟩, ⟨fun _ => hall, fun _ => hres⟩⟩
    · rw [hres] at h; omega
    · obtain ⟨⟨s, hsi, hs⟩, _⟩ := h
      exact absurd hs (hall s (List.getElem?_mem hsi))
  · have hres : hb_excp_str_to_type_loop str l 0 = ((pre.length : Nat) : Int) := by
      rw [hl, lookup_loop_first str pre s post 0 hpre hs]; simp
    have hat : l[pre.length]? = some s := by
      rw [hl, List.getElem?_append_right (le_refl _)]; simp
    have hbefore : ∀ j, j < pre.length → ∀ t, l[j]? = some t → ¬ str.data <:+: t.data := by
      intro j hj t ht
      rw [hl, List.getElem?_append_left hj] at ht
      exact hpre t (List.getElem?_mem ht)
    refine ⟨fun i => ⟨fun h => ?_, fun h => ?_⟩, ⟨fun h => ?_, fun h => ?_⟩⟩
    · rw [hres] at h
      have hi : pre.length = i := by exact_mod_cast h
      subst hi
      exact ⟨⟨s, hat, hs⟩, hbefore⟩
    · obtain ⟨⟨t, hti, ht⟩, hmin⟩ := h
      rw [hres]
      have h1 : ¬ i < pre.length := fun hlt => hbefore i hlt t hti ht
      have h2 : ¬ pre.length < i := fun hlt => hmin pre.length hlt s hat hs
      have : pre.length = i := by omega
      exact_mod_cast this
    · rw [hres] at h; omega
    · exact absurd hs (h s (by rw [hl]; simp))

/-- C14: for every fragment `str`, `hb_excp_str_to_type` returns `i` exactly
when `i` is the smallest index of `excp_strs` (so `i` lies in `0..15`) whose
name contains the fragment as a substring, and returns `-1` exactly when no
registered name contains it; the empty fragment yields `0`. -/
theorem C14_reverse_lookup (str : String) :
    (∀ i : Nat, hb_excp_str_to_type str = (i : Int) ↔
      (∃ s, excp_strs[i]? = some s ∧ str.data <:+: s.data) ∧
      ∀ j, j < i → ∀ t, excp_strs[j]? = some t → ¬ str.data <:+: t.data) ∧
    (hb_excp_str_to_type str = -1 ↔ ∀ s ∈ excp_strs, ¬ str.data <:+: s.data) ∧
    (∀ i : Nat, hb_excp_str_to_type str = (i : Int) → i < 16) ∧
    hb_excp_str_to_type "" = 0 := by
  have h := lookup_loop_spec str excp_strs
  refine ⟨h.1, h.2, ?_, by decide⟩
  intro i hi
  obtain ⟨⟨s, hsi, _⟩, _⟩ := (h.1 i).mp hi
  have hlt : i < excp_strs.length := by
    by_contra hge
    rw [List.getElem?_eq_none (by omega)] at hsi
    exact Option.noConfusion hsi
  exact hlt

/-- The fragment `NotFound` occurs first in entry 6,
`java/lang/ClassNotFoundException`, although entry 12, `FileNotFoundException`,
contains it too; the fragment `zzz` occurs nowhere. -/
theorem C14_witness :
    hb_excp_str_to_type "NotFound" = 6 ∧
    ((∃ s, excp_strs[6]? = some s ∧ "NotFound".data <:+: s.data) ∧
      ∀ j, j < 6 → ∀ t, excp_strs[j]? = some t → ¬ "NotFound".data <:+: t.data) ∧
    (∃ s, excp_strs[12]? = some s ∧ "NotFound".data <:+: s.data) ∧
    hb_excp_str_to_type "zzz" = -1 ∧
    (∀ s ∈ excp_strs, ¬ "zzz".data <:+: s.data) :=
  ⟨by decide,
   ((C14_reverse_lookup "NotFound").1 6).mp (by decide),
   ⟨"FileNotFoundException", by decide, by decide⟩,
   by decide,
   (C14_reverse_lookup "zzz").2.1.mp (by decide)⟩

/-! ## C15: the size of the registry -/

/-- C15 as stated fails: the entries of `excp_strs` without a `/` are not six,
they are the two names `IncompatibleClassChangeError` and
`FileNotFoundException`. -/
theorem C15_counterexample :
    ¬ (excp_strs.length = 16 ∧ (excp_strs.filter bare_name).length = 6) := by
  decide

/-- C15, amended: the table `excp_strs` has exactly sixteen entries, and
exactly two of them are not fully qualified (they contain no `/`):
`IncompatibleClassChangeError` and `FileNotFoundException`. -/
theorem C15_registry_size :
    excp_strs.length = 16 ∧
    (excp_strs.filter bare_name).length = 2 ∧
    excp_strs.filter bare_name = ["IncompatibleClassChangeError", "FileNotFoundException"] ∧
    (∀ s ∈ excp_strs, bare_name s = true ↔ '/' ∉ s.data) := by
  refine ⟨by decide, by decide, by decide, ?_⟩
  intro s _
  simp [bare_name]

/-! ## C20: the registry round trip -/

/-- C20: for every kind index `k` in `0..15`,
`hb_excp_str_to_type (excp_strs[k]) = k`, and no registered class name is a
substring of a name registered at a smaller index. -/
theorem C20_registry_round_trip :
    (∀ k : Fin 16, hb_excp_str_to_type (excp_strs_at k) = (k.val : Int)) ∧
    (∀ k j : Fin 16, j < k → ¬ (excp_strs_at k).data <:+: (excp_strs_at j).data) := by
  refine ⟨by decide, by decide⟩

/-! ## C17: the pool in which the catch type is resolved -/

/-- The name compared with the thrown class name is read from the pool of the
thread's class, at the `name_idx` found in the pool of the frame's class. -/
theorem excp_cand_type_name_eq (tcls : java_class_t) (f : stack_frame_t) (e : excp_table_t) :
    excp_cand_type_name tcls f e = tcls.const_str (f.cls.const_pool e.catch_type).name_idx :=
  rfl

/-- C17, evaluated on a frame of a method of `lib_class` run by a thread of
`main_class`: the entry's `catch_type` denotes `ArithmeticException` in the
pool of the class owning the method, the thrown object is an
`ArithmeticException` and the pc lies in the entry's range, but the name the
loop compares is the string of the thread's class at that `name_idx`, the
empty string here, and the exception is not caught; the same frame in a thread
of `lib_class` catches it. -/
theorem C17_catch_type_resolved_in_thread_class :
    owner_catch_type_name frame_lib ⟨0, 10, 20, 5⟩ = "ArithmeticException" ∧
    hb_get_class_name (vm_lib.heap 1).cls = "ArithmeticException" ∧
    (0 ≤ frame_lib.pc ∧ frame_lib.pc ≤ 10) ∧
    excp_cand_type_name vm_lib.cur_thread.cls frame_lib ⟨0, 10, 20, 5⟩ = "" ∧
    (hb_throw_exception env0 1 vm_lib (some 1)).status = Status.exited EXIT_FAILURE ∧
    (hb_throw_exception env0 1
      { vm_lib with cur_thread := { vm_lib.cur_thread with cls := lib_class } }
      (some 1)).status = Status.returned := by
  refine ⟨by decide, by decide, by decide, by decide, by decide, by decide⟩

/-! ## C18: unwinding comes to an end -/

theorem throws_append (eref : Option Nat) (xs ys : List Call) :
    throws eref (xs ++ ys) = throws eref xs + throws eref ys := by
  simp [throws, List.count_append]

theorem throws_unwind_calls (eref : Option Nat) (n : Nat) :
    throws eref (unwind_calls eref n) = n := by
  induction n with
  | zero => rfl
  | succ n ih =>
    simp only [throws] at ih
    simp [unwind_calls, throws, List.count_cons, ih]

theorem throws_push_val (eref : Option Nat) (stack : op_stack_t) (v : var_t) :
    throws eref (push_val stack v).2 = 0 := by
  unfold push_val throws
  by_cases h : stack.max_oprs < stack.sp + 1 <;> simp [h]

/-- C18: for a non-null exception object and a stack of `n >= 1` frames, fuel
for `n` calls is enough: the recursion of `hb_throw_exception` never goes
deeper than the stack.  The record of calls grows by `d` rounds of an entry
into `hb_throw_exception` followed by one `hb_pop_frame`, so that every
recursive call comes after exactly one pop, and then the run ends in one of two
ways: at a matching handler, after a last entry, with `d < n` and `n - d`
frames left, or at the empty stack, with `d = n`, by `exit (EXIT_FAILURE)`. -/
theorem C18_unwinding_terminates (env : Env) (fuel : Nat) (vm : VM) (a : Nat)
    (hne : vm.cur_thread.frames ≠ [])
    (hfuel : vm.cur_thread.frames.length ≤ fuel) :
    (hb_throw_exception env fuel vm (some a)).status ≠ Status.out_of_fuel ∧
    ∃ d,
      ((hb_throw_exception env fuel vm (some a)).status = Status.returned ∧
        d < vm.cur_thread.frames.length ∧
        (hb_throw_exception env fuel vm (some a)).vm.cur_thread.frames.length
          = vm.cur_thread.frames.length - d ∧
        (∃ cs, (hb_throw_exception env fuel vm (some a)).vm.calls =
            vm.calls ++ (unwind_calls (some a) d ++ Call.hb_throw_exception (some a) :: cs) ∧
          pops cs = 0 ∧ throws (some a) cs = 0) ∧
        throws (some a) (hb_throw_exception env fuel vm (some a)).vm.calls
          = throws (some a) vm.calls + d + 1
       ∨
       (hb_throw_exception env fuel vm (some a)).status = Status.exited EXIT_FAILURE ∧
        d = vm.cur_thread.frames.length ∧
        (hb_throw_exception env fuel vm (some a)).vm.cur_thread.frames = [] ∧
        (hb_throw_exception env fuel vm (some a)).vm.calls =
          vm.calls ++ (unwind_calls (some a) d ++ [Call.free]) ∧
        throws (some a) (hb_throw_exception env fuel vm (some a)).vm.calls
          = throws (some a) vm.calls + d) ∧
      pops (hb_throw_exception env fuel vm (some a)).vm.calls = pops vm.calls + d := by
  rcases first_split (frame_handles vm.cur_thread.cls (hb_get_class_name (vm.heap a).cls))
    vm.cur_thread.frames with hall | ⟨pre, f, rest, hfr, hpre, hf⟩
  · rw [throw_uncaught_at env a fuel vm hne hall hfuel]
    refine ⟨fun h => Status.noConfusion h, vm.cur_thread.frames.length,
      Or.inr ⟨rfl, rfl, rfl, rfl, ?_⟩, ?_⟩
    · show throws (some a) (vm.calls ++
        (unwind_calls (some a) vm.cur_thread.frames.length ++ [Call.free])) = _
      rw [throws_append, throws_append, throws_unwind_calls]
      simp [throws]
    · show pops (vm.calls ++
        (unwind_calls (some a) vm.cur_thread.frames.length ++ [Call.free])) = _
      rw [pops_append, pops_append, pops_unwind_calls]
      simp [pops]
  · have hlen := congrArg List.length hfr
    simp at hlen
    obtain ⟨e, _, _, hres⟩ :=
      throw_handled_at env a fuel vm pre f rest hfr hpre hf (by omega)
    rw [hres]
    refine ⟨fun h => Status.noConfusion h, pre.length,
      Or.inl ⟨rfl, by omega, ?_, ⟨_, rfl, pops_push_val _ _, throws_push_val _ _ _⟩, ?_⟩, ?_⟩
    · show (install f (some a) e :: rest).length = _
      simp; omega
    · show throws (some a) (vm.calls ++ (unwind_calls (some a) pre.length ++
        Call.hb_throw_exception (some a) :: (push_val f.op_stack { obj := some a }).2)) = _
      rw [throws_append, throws_append, throws_unwind_calls,
        show Call.hb_throw_exception (some a) :: (push_val f.op_stack { obj := some a }).2
          = [Call.hb_throw_exception (some a)] ++ (push_val f.op_stack { obj := some a }).2
          from rfl,
        throws_append, throws_push_val]
      simp [throws]
      omega
    · show pops (vm.calls ++ (unwind_calls (some a) pre.length ++
        Call.hb_throw_exception (some a) :: (push_val f.op_stack { obj := some a }).2)) = _
      rw [pops_append, pops_append, pops_unwind_calls,
        show Call.hb_throw_exception (some a) :: (push_val f.op_stack { obj := some a }).2
          = [Call.hb_throw_exception (some a)] ++ (push_val f.op_stack { obj := some a }).2
          from rfl,
        pops_append, pops_push_val]
      simp [pops]

/-- Scenario B, two frames and fuel 2: the run does not use up its fuel; it
ends at the handler of the caller after one pop and two entries. -/
theorem C18_witness :
    (vm_B.cur_thread.frames ≠ [] ∧ vm_B.cur_thread.frames.length ≤ 2) ∧
    (hb_throw_exception env0 2 vm_B (some 1)).status ≠ Status.out_of_fuel ∧
    (hb_throw_exception env0 2 vm_B (some 1)).status = Status.returned ∧
    (hb_throw_exception env0 2 vm_B (some 1)).vm.calls =
      [Call.hb_throw_exception (some 1), Call.hb_pop_frame,
       Call.hb_throw_exception (some 1)] :=
  ⟨⟨List.cons_ne_nil _ _, by decide⟩,
   (C18_unwinding_terminates env0 2 vm_B 1 (List.cons_ne_nil _ _) (by decide)).1,
   by decide, by decide⟩

/-! ## C19: the constructor frame is searched first -/

/-- C19: for a kind `k` for which the allocator returns an object `r`, and a
non-empty stack `S = vm.cur_thread.frames`, `hb_throw_and_create_excp (k)`
starts handler matching in the constructor frame it has just pushed: when that
frame has a matching entry at its pc, the call returns in the constructor frame
with `S` untouched below it; when it has none, the frame is popped again and
the result is the result of `hb_throw_exception (r)` on the stack `S` (with the
heap the allocator left), the record of calls showing one push of the
constructor frame and one pop before it. -/
theorem C19_ctor_frame_searched_first (env : Env) (fuel fuel2 : Nat) (vm : VM) (k : Fin 16)
    (r : Nat) (h1 : Nat → native_obj_t)
    (halloc : env.gc_obj_alloc (env.hb_get_or_load_class (excp_strs_at k)) vm.heap
      = (some r, h1))
    (hne : vm.cur_thread.frames ≠ [])
    (hfuel : vm.cur_thread.frames.length + 2 ≤ fuel)
    (hfuel2 : vm.cur_thread.frames.length ≤ fuel2) :
    ((∃ e ∈ (env.ctor_frame h1 (some r)).minfo.code_attr.excp_table,
        e.start_pc ≤ (env.ctor_frame h1 (some r)).pc ∧
        (env.ctor_frame h1 (some r)).pc ≤ e.end_pc ∧
        excp_cand_type_name vm.cur_thread.cls (env.ctor_frame h1 (some r)) e
          = hb_get_class_name (h1 r).cls) →
      (hb_throw_and_create_excp env fuel vm k).status = Status.returned ∧
      ∃ f1, (hb_throw_and_create_excp env fuel vm k).vm.cur_thread.frames
          = f1 :: vm.cur_thread.frames ∧
        f1.minfo = (env.ctor_frame h1 (some r)).minfo) ∧
    ((∀ e ∈ (env.ctor_frame h1 (some r)).minfo.code_attr.excp_table,
        ¬ (e.start_pc ≤ (env.ctor_frame h1 (some r)).pc ∧
          (env.ctor_frame h1 (some r)).pc ≤ e.end_pc ∧
          excp_cand_type_name vm.cur_thread.cls (env.ctor_frame h1 (some r)) e
            = hb_get_class_name (h1 r).cls)) →
      hb_throw_and_create_excp env fuel vm k =
        hb_throw_exception env fuel2
          { vm with
            heap := h1
            calls := vm.calls ++
              [Call.hb_get_or_load_class (excp_strs_at k),
               Call.gc_obj_alloc
                 ((env.hb_get_or_load_class (excp_strs_at k)).map hb_get_class_name),
               Call.hb_push_ctor_frame (some r),
               Call.hb_throw_exception (some r),
               Call.hb_pop_frame] }
          (some r)) := by
  obtain ⟨m, rfl⟩ : ∃ m, fuel = m + 2 := ⟨fuel - 2, by omega⟩
  obtain ⟨g, rest, hS⟩ : ∃ g rest, vm.cur_thread.frames = g :: rest := by
    cases hfr : vm.cur_thread.frames with
    | nil => exact absurd hfr hne
    | cons g rest => exact ⟨g, rest, rfl⟩
  have hcreate : hb_throw_and_create_excp env (m + 2) vm k =
      hb_throw_exception env (m + 1)
        { vm with
          cur_thread :=
            { vm.cur_thread with frames := env.ctor_frame h1 (some r) :: g :: rest }
          heap := h1
          calls := vm.calls ++
            [Call.hb_get_or_load_class (excp_strs_at k),
             Call.gc_obj_alloc
               ((env.hb_get_or_load_class (excp_strs_at k)).map hb_get_class_name),
             Call.hb_push_ctor_frame (some r)] }
        (some r) := by
    rw [hb_throw_and_create_excp]
    simp [VM.call, halloc, hb_push_ctor_frame, hS]
  constructor
  · intro hex
    obtain ⟨pre, e, post, _, _, _, hloop⟩ :=
      loop_of_frame_handles vm.cur_thread.cls (env.ctor_frame h1 (some r)) (some r)
        (hb_get_class_name (h1 r).cls) hex
    rw [hcreate, throw_step_match env m _ r (env.ctor_frame h1 (some r)) (g :: rest) _ _ rfl
      hloop]
    exact ⟨rfl, install (env.ctor_frame h1 (some r)) (some r) e, by simp [hS], rfl⟩
  · intro hno
    have hloop := (excp_table_loop_eq_none vm.cur_thread.cls (env.ctor_frame h1 (some r))
      (some r) (hb_get_class_name (h1 r).cls)
      (env.ctor_frame h1 (some r)).minfo.code_attr.excp_table).mpr hno
    rw [hcreate, throw_step_pop env m _ r (env.ctor_frame h1 (some r)) g rest rfl hloop]
    have hpop : hb_pop_frame (VM.call
        { vm with
          cur_thread :=
            { vm.cur_thread with frames := env.ctor_frame h1 (some r) :: g :: rest }
          heap := h1
          calls := vm.calls ++
            [Call.hb_get_or_load_class (excp_strs_at k),
             Call.gc_obj_alloc
               ((env.hb_get_or_load_class (excp_strs_at k)).map hb_get_class_name),
             Call.hb_push_ctor_frame (some r)] }
        (Call.hb_throw_exception (some r))) =
        { vm with
          heap := h1
          calls := vm.calls ++
            [Call.hb_get_or_load_class (excp_strs_at k),
             Call.gc_obj_alloc
               ((env.hb_get_or_load_class (excp_strs_at k)).map hb_get_class_name),
             Call.hb_push_ctor_frame (some r),
             Call.hb_throw_exception (some r),
             Call.hb_pop_frame] } := by
      simp only [hb_pop_frame, VM.call, List.tail_cons, List.append_assoc,
        List.cons_append, List.nil_append]
      rw [← hS]
    rw [hpop]
    exact throw_fuel_indep env r _ m fuel2 (by simpa using hne)
      (by simp only []; omega) (by simpa using hfuel2)

/-- Kind `EXCP_NULL_PTR` raised on the stack of `vm_N` in the runtime `env1`,
whose constructor frames have no handlers: the result is that of
`hb_throw_exception` for the allocated object 7 on the stack of `vm_N`. -/
theorem C19_witness :
    (env1.gc_obj_alloc (env1.hb_get_or_load_class (excp_strs_at EXCP_NULL_PTR)) vm_N.heap
        = (some 7, Function.update heap0 7
            (mk_obj (mk_class "java/lang/NullPointerException" []) none)) ∧
      vm_N.cur_thread.frames ≠ [] ∧ vm_N.cur_thread.frames.length + 2 ≤ 3 ∧
      vm_N.cur_thread.frames.length ≤ 1) ∧
    hb_throw_and_create_excp env1 3 vm_N EXCP_NULL_PTR =
      hb_throw_exception env1 1
        { vm_N with
          heap := Function.update heap0 7
            (mk_obj (mk_class "java/lang/NullPointerException" []) none)
          calls := vm_N.calls ++
            [Call.hb_get_or_load_class (excp_strs_at EXCP_NULL_PTR),
             Call.gc_obj_alloc
               ((env1.hb_get_or_load_class (excp_strs_at EXCP_NULL_PTR)).map
                 hb_get_class_name),
             Call.hb_push_ctor_frame (some 7),
             Call.hb_throw_exception (some 7),
             Call.hb_pop_frame] }
        (some 7) ∧
    (hb_throw_and_create_excp env1 3 vm_N EXCP_NULL_PTR).vm.calls =
      [Call.hb_get_or_load_class "java/lang/NullPointerException",
       Call.gc_obj_alloc (some "java/lang/NullPointerException"),
       Call.hb_push_ctor_frame (some 7),
       Call.hb_throw_exception (some 7),
       Call.hb_pop_frame,
       Call.hb_throw_exception (some 7)] :=
  ⟨⟨rfl, List.cons_ne_nil _ _, by decide, by decide⟩,
   (C19_ctor_frame_searched_first env1 3 1 vm_N EXCP_NULL_PTR 7
     (Function.update heap0 7 (mk_obj (mk_class "java/lang/NullPointerException" []) none))
     rfl (List.cons_ne_nil _ _) (by decide) (by decide)).2 (by decide),
   by decide⟩

end Hawkbeans
